import Mathlib

/-!
Verification of the canonical uid indexing and cache-storage subsystem of
`activitysim/core/pathbuilder_cache.py` (classes `TVPBCache` and
`TapTapUidCalculator`).

The embedding is shallow: the pandas/numpy data structures are replaced by
plain lists, a dataframe indexed by uid becomes an association list
`List (Nat × R)` of (uid, row) pairs, and the filesystem / network_los
settings consulted by the cache store are passed in explicitly as
environment records.  Attribute names and attribute values are opaque types
with decidable equality (`N` and `V`), matching the dynamically typed Python
values; tap ids are natural numbers as in the `TAP` column.
-/

set_option maxHeartbeats 1000000
set_option linter.unusedSectionVars false

namespace PBC

variable {N V : Type} [DecidableEq N] [DecidableEq V]

/-! ## Generic list machinery for the mixed-radix uid computation -/

/-- Cartesian product of a list of value lists in `itertools.product` order:
the first list varies slowest, the last list varies fastest.  This is the
order of `TapTapUidCalculator.attribute_combination_tuples`. -/
def cartProd {α : Type} : List (List α) → List (List α)
  | [] => [[]]
  | l :: ls => l.flatMap (fun v => (cartProd ls).map (fun t => v :: t))

/-- The number of tuples the Cartesian product of these lists has. -/
def prodLens {α : Type} : List (List α) → Nat
  | [] => 1
  | l :: ls => l.length * prodLens ls

/-- Ordinal position of a value in an ordinalizer's index: the ordinalizer
`pd.Series(range(len(v)), index=v)` maps the i-th index value to `i`. -/
def ordinal {α : Type} [DecidableEq α] : List α → α → Nat
  | [], _ => 0
  | w :: ws, v => if v = w then 0 else ordinal ws v + 1

/-- Cardinality of an attribute, `ordinalizer.max() + 1`: the ordinalizer
maps the i-th of `n` index values to `i`, so its maximum is `n - 1`. -/
def cardinality {α : Type} (l : List α) : Nat := l.length

/-- The mixed-radix accumulation `uid = uid * cardinality + ordinal` of
`get_unique_ids`, folded over one attribute value per value list. -/
def uidFold {V : Type} [DecidableEq V] : List (List V) → List V → Nat → Nat
  | l :: ls, v :: t, u => uidFold ls t (u * cardinality l + ordinal l v)
  | _, _, u => u

/-- Row-major enumeration of (item, tap) pairs, the order produced by
`np.repeat` of the first component over `np.tile` of the taps: the first
component varies slowest. -/
def pairDomain {α : Type} (X : List α) (taps : List Nat) : List (α × Nat) :=
  X.flatMap (fun x => taps.map (fun b => (x, b)))

/-! ## The TapTapUidCalculator

Translated from `TapTapUidCalculator` in `pathbuilder_cache.py`.  Attribute
names have type `N` and segment attribute values type `V`; tap ids are the
values of the `TAP` column of `network_los.tap_df`.  The ordinalizer mapping
(`self.ordinalizers`) is an insertion-ordered dict holding one ordinalizer
per segmentation attribute followed by the shared `btap`/`atap` ordinalizer
over `tap_ids`; here it is represented by the `segmentation` association
list together with `tap_ids`, and the dict keys `btap` and `atap` are the
distinguished names `btap_key` and `atap_key`. -/

structure TapTapUidCalculator (N V : Type) where
  /-- `attribute_segments` from the settings: attribute name to the ordered
  list of its legal values. -/
  segmentation : List (N × List V)
  /-- the `TAP` ids of `network_los.tap_df`, in canonical order. -/
  tap_ids : List Nat
  /-- columns of the model spec read by `simulate.read_model_spec`. -/
  set_names : List N
  /-- the ordinalizer-dict key `btap`. -/
  btap_key : N
  /-- the ordinalizer-dict key `atap`. -/
  atap_key : N

/-- `self.attribute_combination_tuples`:
`list(itertools.product(*list(self.segmentation.values())))`. -/
def attribute_combination_tuples (c : TapTapUidCalculator N V) : List (List V) :=
  cartProd (c.segmentation.map Prod.snd)

/-- `fully_populated_shape`:
`(num_combinations * num_orig_zones * num_dest_zones, num_sets)`. -/
def fully_populated_shape (c : TapTapUidCalculator N V) : Nat × Nat :=
  ((attribute_combination_tuples c).length * c.tap_ids.length * c.tap_ids.length,
    c.set_names.length)

/-- `fully_populated_uids`:
`np.arange(num_combinations * num_orig_zones * num_dest_zones)`. -/
def fully_populated_uids (c : TapTapUidCalculator N V) : List Nat :=
  List.range ((attribute_combination_tuples c).length * c.tap_ids.length * c.tap_ids.length)

/-- Lookup of `scalar_attributes[name]` on the scalar-attributes dict,
modelled as an association list. -/
def lookupAttr : List (N × V) → N → Option V
  | [], _ => none
  | p :: ps, k => if p.1 = k then some p.2 else lookupAttr ps k

/-- The segmentation-attribute stage of `get_unique_ids` for one logical
row: iterate the segmentation ordinalizers in insertion order doing
`uid = uid * cardinality + ordinalizer.at[scalar_attributes[name]]`.
The caller's dataframe carries exactly the columns `btap` and `atap`, so
`name in df` holds iff the attribute name is one of the two tap keys; in
that case the integer tap column would be mapped through a segment-value
ordinalizer, producing only NaNs (an invalid uid), which the embedding
reports as `none`.  A name found in neither the dataframe nor
`scalar_attributes` fails the `assert name in scalar_attributes`, and a
value absent from the ordinalizer index raises a pandas `KeyError`; both
are `none` as well. -/
def segUid (btapk atapk : N) : List (N × List V) → List (N × V) → Nat → Option Nat
  | [], _, u => some u
  | (name, vs) :: rest, sa, u =>
    if name = btapk ∨ name = atapk then none
    else
      match lookupAttr sa name with
      | none => none
      | some v =>
        if v ∈ vs then segUid btapk atapk rest sa (u * cardinality vs + ordinal vs v)
        else none

/-- `get_unique_ids` for one logical row of the od dataframe (which has
exactly the columns `btap` and `atap`): after the segmentation stage, the
two tap stages do `uid = uid * cardinality + df[name].map(ordinalizer)`.
A tap missing from the tap ordinalizer maps to NaN, poisoning the uid,
which the embedding reports as `none`. -/
def get_unique_ids (c : TapTapUidCalculator N V) (sa : List (N × V)) (btap atap : Nat) :
    Option Nat :=
  match segUid c.btap_key c.atap_key c.segmentation sa 0 with
  | none => none
  | some u =>
    if btap ∈ c.tap_ids ∧ atap ∈ c.tap_ids then
      some ((u * cardinality c.tap_ids + ordinal c.tap_ids btap) * cardinality c.tap_ids
        + ordinal c.tap_ids atap)
    else none

/-- The full key space: every attribute-combination tuple crossed with every
(btap, atap) pair, in canonical row order (tuples slowest, atap fastest),
as enumerated by `each_scalar_attribute_combination` × `get_od_dataframe`. -/
def fullDomain (c : TapTapUidCalculator N V) : List ((List V × Nat) × Nat) :=
  pairDomain (pairDomain (attribute_combination_tuples c) c.tap_ids) c.tap_ids

/-- The `get_skim_offset` accumulation over the segmentation ordinalizers:
an attribute name present in the scalar-attributes dict contributes a
mixed-radix step, an absent name is skipped. -/
def skimFold : List (N × List V) → List (N × V) → Nat → Option Nat
  | [], _, u => some u
  | (_name, vs) :: rest, sa, u =>
    match lookupAttr sa _name with
    | none => skimFold rest sa u
    | some v =>
      if v ∈ vs then skimFold rest sa (u * cardinality vs + ordinal vs v)
      else none

/-- `get_skim_offset`: the ordinal position of a set of scalar attributes in
the list of attribute combination tuples.  The loop also visits the `btap`
and `atap` ordinalizers, contributing only when those names appear in the
dict; a segment scalar-attributes dict never contains them (their values
would be ordinalized against the integer tap index, which lies outside `V`),
so the embedding requires their absence. -/
def get_skim_offset (c : TapTapUidCalculator N V) (sa : List (N × V)) : Option Nat :=
  if lookupAttr sa c.btap_key = none ∧ lookupAttr sa c.atap_key = none then
    skimFold c.segmentation sa 0
  else none

/-- `each_scalar_attribute_combination`: yield, for every attribute
combination tuple in order, the dict zipping the attribute names with the
tuple's values. -/
def each_scalar_attribute_combination (c : TapTapUidCalculator N V) : List (List (N × V)) :=
  (attribute_combination_tuples c).map (fun t => (c.segmentation.map Prod.fst).zip t)

/-! ## The TVPBCache store

Translated from `TVPBCache` in `pathbuilder_cache.py`.  The in-memory
dataframe `self._df` becomes `Option (List (Nat × R))`: `none` is Python's
`None`, and a present table is the list of (uid index, row) pairs, one row
payload of type `R` per uid.  Failed `assert` statements and the attribute
error raised by `self._df.index` on `None` are explicit error values;
filesystem writes become a list of write events; the `network_los` settings
and the files present on disk are passed as explicit environment records. -/

/-- The distinct failure modes of the cache store operations. -/
inductive CacheErr : Type
  /-- `assert len(new_rows) > 0` failed. -/
  | assertNonempty
  /-- `assert self.is_open` failed. -/
  | assertOpenState
  /-- `assert not self.is_open` failed. -/
  | assertNotOpenState
  /-- `assert not self.is_fully_populated` failed. -/
  | assertNotFullyPopulated
  /-- `assert not df.index.duplicated().any()` failed. -/
  | assertNoDuplicates
  /-- the literal `assert False` in `flush`, annotated `#BUG` in the source,
  guarding the static-cache write path for a dirty fully-populated table. -/
  | assertFalseStaticFlush
  /-- `self._df.index` raised `AttributeError` because `self._df is None`. -/
  | attributeErrorNoneTable
  /-- `assert self.cache_tag in data_buffers` failed. -/
  | assertBufferMissing
  /-- `assert data.shape[0] == len(fully_populated_uids)` failed. -/
  | assertShapeMismatch
deriving DecidableEq

/-- Result of a cache-store operation: either a raised error or a value. -/
inductive Res (A : Type) : Type
  | fail (e : CacheErr)
  | ok (a : A)
deriving DecidableEq

/-- The mutable state of a `TVPBCache` instance: `self.is_open`,
`self.is_changed` and `self._df`. -/
structure CacheState (R : Type) where
  is_open : Bool
  is_changed : Bool
  df : Option (List (Nat × R))
deriving DecidableEq

/-- `self._df` viewed as a table, empty when `None` (used only to state
row counts; operations on the state distinguish `None` themselves). -/
def tableOf {R : Type} (s : CacheState R) : List (Nat × R) := s.df.getD []

/-- `is_fully_populated`:
`self._df is not None and len(self._df) == self.uid_calculator.fully_populated_shape[0]`.
The target row count `fullRows` is `fully_populated_shape.1` of the
calculator the store owns. -/
def is_fully_populated {R : Type} (fullRows : Nat) (s : CacheState R) : Bool :=
  match s.df with
  | none => false
  | some d => d.length == fullRows

/-- A write to one of the on-disk artifacts. -/
inductive WriteEvent (R : Type) : Type
  /-- the fixed-shape binary memmap file (rows only, in table order). -/
  | staticFile (rows : List R)
  /-- the feather file: `self._df.reset_index()`, so uid index plus rows. -/
  | dynamicFile (table : List (Nat × R))
  /-- the diagnostic csv dump of the table. -/
  | traceFile (table : List (Nat × R))
deriving DecidableEq

/-- The `network_los` settings consulted by `flush`. -/
structure LosSettings : Type where
  /-- `self.network_los.rebuild_tvpb_cache`. -/
  rebuild_tvpb_cache : Bool
  /-- `self.network_los.setting('trace_tvpb_cache_as_csv', False)`. -/
  trace_tvpb_cache_as_csv : Bool
deriving DecidableEq

/-- `TVPBCache.flush`: `assert self.is_open`; then
`assert not self._df.index.duplicated().any()` (an `AttributeError` when
`self._df` is `None`); when dirty and fully populated, the `assert False`
annotated `#BUG` fires before the dead static-write code below it; when
dirty and not fully populated, write the feather file and clear the dirty
flag only if `rebuild_tvpb_cache` is set, else skip persistence; when dirty,
optionally dump the trace csv; when not dirty, do nothing. -/
def flush {R : Type} (env : LosSettings) (fullRows : Nat) (s : CacheState R) :
    Res (CacheState R × List (WriteEvent R)) :=
  if s.is_open then
    match s.df with
    | none => Res.fail CacheErr.attributeErrorNoneTable
    | some d =>
      if (d.map Prod.fst).Nodup then
        if s.is_changed then
          if is_fully_populated fullRows s then
            Res.fail CacheErr.assertFalseStaticFlush
          else
            let base := if env.rebuild_tvpb_cache
              then ({ s with is_changed := false }, [WriteEvent.dynamicFile d])
              else (s, ([] : List (WriteEvent R)))
            let tr := if env.trace_tvpb_cache_as_csv
              then [WriteEvent.traceFile d] else []
            Res.ok (base.1, base.2 ++ tr)
        else Res.ok (s, [])
      else Res.fail CacheErr.assertNoDuplicates
  else Res.fail CacheErr.assertOpenState

/-- `TVPBCache.extend_table`: `assert len(new_rows) > 0`,
`assert self.is_open`, `assert not self.is_fully_populated`; then set
`self.is_changed = True` and concatenate (`new_rows.copy()` when `self._df`
is `None`); only afterwards `assert not self._df.index.duplicated().any()`,
so on a duplicate key the state keeps the mutation. -/
def extend_table {R : Type} (fullRows : Nat) (s : CacheState R)
    (new_rows : List (Nat × R)) : CacheState R × Option CacheErr :=
  if new_rows.length = 0 then (s, some CacheErr.assertNonempty)
  else if s.is_open then
    if is_fully_populated fullRows s then (s, some CacheErr.assertNotFullyPopulated)
    else
      let df2 := match s.df with
        | none => new_rows
        | some d => d ++ new_rows
      let s2 : CacheState R := { s with is_changed := true, df := some df2 }
      if (df2.map Prod.fst).Nodup then (s2, none)
      else (s2, some CacheErr.assertNoDuplicates)
  else (s, some CacheErr.assertOpenState)

/-- The loading environment of `TVPBCache.open`: whether the run is
multiprocessing, the shared data buffer registered for this cache tag
(already reshaped to one row per uid), and the static / dynamic cache
files present on disk. -/
structure OpenEnv (R : Type) : Type where
  multiprocess : Bool
  data_buffer : Option (List R)
  static_file : Option (List R)
  dynamic_file : Option (List (Nat × R))
deriving DecidableEq

/-- `TVPBCache.open`: `assert not self.is_open`, set `self.is_open = True`;
in rebuild mode return immediately; otherwise attach the shared buffer when
multiprocessing (`assert self.cache_tag in data_buffers`, and the wrapped
dataframe construction asserts `data.shape[0] == len(fully_populated_uids)`
before indexing the rows by `uids`), else memory-map an existing static
file the same way, else load an existing feather file and
`assert not df.index.duplicated().any()`, else leave the table absent. -/
def openCache {R : Type} (env : OpenEnv R) (uids : List Nat) (s : CacheState R)
    (for_rebuild : Bool) : Res (CacheState R) :=
  if s.is_open then Res.fail CacheErr.assertNotOpenState
  else
    let s1 : CacheState R := { s with is_open := true }
    if for_rebuild then Res.ok s1
    else if env.multiprocess then
      match env.data_buffer with
      | none => Res.fail CacheErr.assertBufferMissing
      | some rows =>
        if rows.length = uids.length then Res.ok { s1 with df := some (uids.zip rows) }
        else Res.fail CacheErr.assertShapeMismatch
    else match env.static_file with
      | some rows =>
        if rows.length = uids.length then Res.ok { s1 with df := some (uids.zip rows) }
        else Res.fail CacheErr.assertShapeMismatch
      | none =>
        match env.dynamic_file with
        | some t =>
          if (t.map Prod.fst).Nodup then Res.ok { s1 with df := some t }
          else Res.fail CacheErr.assertNoDuplicates
        | none => Res.ok s1

/-- One float32 cell of a data buffer: either the NaN sentinel or a finite
numeric value. -/
inductive Cell : Type
  | nan
  | val (q : ℚ)
deriving DecidableEq

/-- Modelled from the spec: `util.iprod` is defined in
`activitysim.core.util`, which is not among the sources here; per the spec
the buffer size is the flat product `rows × cols` of the fully-populated
shape. -/
def iprod (shape : Nat × Nat) : Nat := shape.1 * shape.2

/-- `TVPBCache.allocate_data_buffer`: `assert not self.is_open`; a shared
buffer is `multiprocessing.Array('f', buffer_size)` (RAWARRAY is False) —
a zero-initialized C float array with an associated lock (the lock itself
is not modelled) — while a private buffer is `np.empty(buffer_size)`
followed by `np.copyto(buffer, np.nan)`. -/
def allocate_data_buffer (shape : Nat × Nat) (is_open shared : Bool) :
    Res (List Cell) :=
  if is_open then Res.fail CacheErr.assertNotOpenState
  else if shared then Res.ok (List.replicate (iprod shape) (Cell.val 0))
  else Res.ok (List.replicate (iprod shape) Cell.nan)

/-- The spec's example configuration: segmentation `{tod: [AM, MD]}` and
access points `[10, 20]`, over attribute names and values encoded as
naturals: the attribute name `tod` is `0`, the ordinalizer-dict keys `btap`
and `atap` are `1` and `2`, and the values `AM` and `MD` are `0` and `1`. -/
def exampleCalculator (sets : List Nat) : TapTapUidCalculator Nat Nat :=
  { segmentation := [(0, [0, 1])]
  , tap_ids := [10, 20]
  , set_names := sets
  , btap_key := 1
  , atap_key := 2 }

/-! ## Theorems -/
@[simp] theorem ordinal_nil {α : Type} [DecidableEq α] (v : α) : ordinal [] v = 0 := rfl

@[simp] theorem ordinal_cons_self {α : Type} [DecidableEq α] (w : α) (ws : List α) :
    ordinal (w :: ws) w = 0 := by
  simp [ordinal]

theorem ordinal_cons_ne {α : Type} [DecidableEq α] {v w : α} (ws : List α) (h : v ≠ w) :
    ordinal (w :: ws) v = ordinal ws v + 1 := by
  simp [ordinal, h]

/-- On a duplicate-free list, mapping every element to its ordinal yields
exactly `0, 1, ..., length - 1` in order. -/
theorem map_ordinal_eq_range {α : Type} [DecidableEq α] (l : List α) (h : l.Nodup) :
    l.map (ordinal l) = List.range l.length := by
  induction l with
  | nil => rfl
  | cons x xs ih =>
    rcases List.nodup_cons.mp h with ⟨hx, hxs⟩
    have htail : xs.map (ordinal (x :: xs)) = (List.range xs.length).map (· + 1) := by
      have h1 : xs.map (ordinal (x :: xs)) = xs.map (fun v => ordinal xs v + 1) := by
        apply List.map_congr_left
        intro v hv
        exact ordinal_cons_ne xs (fun hvx => hx (hvx ▸ hv))
      rw [h1, ← ih hxs, List.map_map]
      rfl
    rw [List.map_cons, ordinal_cons_self, htail, List.length_cons,
      List.range_succ_eq_map]

@[simp] theorem uidFold_nil {V : Type} [DecidableEq V] (t : List V) (u : Nat) :
    uidFold [] t u = u := rfl

@[simp] theorem uidFold_cons {V : Type} [DecidableEq V] (l : List V) (ls : List (List V))
    (v : V) (t : List V) (u : Nat) :
    uidFold (l :: ls) (v :: t) u = uidFold ls t (u * cardinality l + ordinal l v) := rfl

theorem uidFold_shift {V : Type} [DecidableEq V] :
    ∀ (ls : List (List V)) (t : List V) (u : Nat), t.length = ls.length →
      uidFold ls t u = u * prodLens ls + uidFold ls t 0
  | [], t, u, _ => by simp [prodLens]
  | l :: ls, v :: t, u, h => by
    have hlen : t.length = ls.length := by simpa using h
    rw [uidFold_cons, uidFold_cons, uidFold_shift ls t _ hlen,
      uidFold_shift ls t (0 * cardinality l + ordinal l v) hlen]
    simp [prodLens, cardinality]
    ring

/-- Splitting `range (n * P)` into `n` consecutive blocks of size `P`. -/
theorem range_flatMap_block (n P : Nat) :
    (List.range n).flatMap (fun i => (List.range P).map (fun j => i * P + j))
      = List.range (n * P) := by
  induction n with
  | zero => simp
  | succ n ih =>
    rw [List.range_succ, List.flatMap_append, ih, Nat.succ_mul, List.range_add (n * P) P]
    simp

/-- Each tuple of the Cartesian product picks one value per input list. -/
theorem length_of_mem_cartProd {α : Type} :
    ∀ {ls : List (List α)} {t : List α}, t ∈ cartProd ls → t.length = ls.length
  | [], t, h => by
    simp [cartProd] at h
    simp [h]
  | l :: ls, t, h => by
    simp only [cartProd, List.mem_flatMap, List.mem_map] at h
    obtain ⟨v, _, t', ht', rfl⟩ := h
    simpa using length_of_mem_cartProd ht'

/-- Membership in the Cartesian product decomposes pointwise. -/
theorem mem_cartProd_cons {α : Type} {l : List α} {ls : List (List α)} {t : List α} :
    t ∈ cartProd (l :: ls) ↔ ∃ v ∈ l, ∃ t' ∈ cartProd ls, t = v :: t' := by
  simp only [cartProd, List.mem_flatMap, List.mem_map]
  constructor
  · rintro ⟨v, hv, t', ht', rfl⟩
    exact ⟨v, hv, t', ht', rfl⟩
  · rintro ⟨v, hv, t', ht', rfl⟩
    exact ⟨v, hv, t', ht', rfl⟩

theorem length_cartProd {α : Type} : ∀ (ls : List (List α)),
    (cartProd ls).length = prodLens ls
  | [] => rfl
  | l :: ls => by
    induction l with
    | nil => simp [cartProd, prodLens]
    | cons x xs ihx =>
      simp only [cartProd, List.flatMap_cons, List.length_append, List.length_map] at ihx ⊢
      rw [length_cartProd ls, ihx]
      simp [prodLens, length_cartProd ls, Nat.succ_mul]
      ring

/-- Core bijection lemma: over duplicate-free value lists, the mixed-radix
fold maps the Cartesian product, in order, onto `0, 1, ..., prodLens - 1`. -/
theorem map_uidFold_cartProd {V : Type} [DecidableEq V] :
    ∀ (ls : List (List V)), (∀ l ∈ ls, l.Nodup) →
      (cartProd ls).map (fun t => uidFold ls t 0) = List.range (prodLens ls)
  | [], _ => by simp [cartProd, prodLens, List.range_succ]
  | l :: ls, h => by
    have hl : l.Nodup := h l (by simp)
    have hls : ∀ l' ∈ ls, l'.Nodup := fun l' hl' => h l' (by simp [hl'])
    have ih := map_uidFold_cartProd ls hls
    calc (cartProd (l :: ls)).map (fun t => uidFold (l :: ls) t 0)
        = l.flatMap (fun v => (cartProd ls).map
            (fun t => ordinal l v * prodLens ls + uidFold ls t 0)) := by
          simp only [cartProd, List.map_flatMap, List.map_map]
          apply List.flatMap_congr
          intro v _
          apply List.map_congr_left
          intro t ht
          simp only [Function.comp_apply, uidFold_cons]
          rw [uidFold_shift ls t _ (length_of_mem_cartProd ht)]
          ring_nf
      _ = l.flatMap (fun v => (List.range (prodLens ls)).map
            (fun j => ordinal l v * prodLens ls + j)) := by
          apply List.flatMap_congr
          intro v _
          rw [← ih, List.map_map]
          rfl
      _ = (l.map (ordinal l)).flatMap (fun i => (List.range (prodLens ls)).map
            (fun j => i * prodLens ls + j)) := by
          rw [List.flatMap_map]
      _ = List.range (prodLens (l :: ls)) := by
          rw [map_ordinal_eq_range l hl, range_flatMap_block]
          rfl

theorem mem_pairDomain {α : Type} {X : List α} {taps : List Nat} {p : α × Nat} :
    p ∈ pairDomain X taps ↔ p.1 ∈ X ∧ p.2 ∈ taps := by
  rcases p with ⟨x, b⟩
  simp only [pairDomain, List.mem_flatMap, List.mem_map, Prod.mk.injEq]
  constructor
  · rintro ⟨x', hx', b', hb', rfl, rfl⟩
    exact ⟨hx', hb'⟩
  · rintro ⟨hx, hb⟩
    exact ⟨x, hx, b, hb, rfl, rfl⟩

/-- Appending one mixed-radix digit ranging over the taps: if the previous
stages cover `range N` in order, the combined stage covers
`range (N * num_taps)` in order. -/
theorem map_pairDomain_step {α : Type} (X : List α) (taps : List Nat) (f : α → Nat)
    (N : Nat) (hX : X.map f = List.range N) (htaps : taps.Nodup) :
    (pairDomain X taps).map (fun p => f p.1 * cardinality taps + ordinal taps p.2)
      = List.range (N * taps.length) := by
  calc (pairDomain X taps).map (fun p => f p.1 * cardinality taps + ordinal taps p.2)
      = X.flatMap (fun x => (List.range taps.length).map (fun j => f x * taps.length + j)) := by
        simp only [pairDomain, List.map_flatMap, List.map_map]
        apply List.flatMap_congr
        intro x _
        rw [← map_ordinal_eq_range taps htaps, List.map_map]
        rfl
    _ = (X.map f).flatMap (fun i => (List.range taps.length).map
          (fun j => i * taps.length + j)) := by
        rw [List.flatMap_map]
    _ = List.range (N * taps.length) := by
        rw [hX, range_flatMap_block]

/-! ## Evaluating the uid computation on canonical scalar-attribute dicts -/

theorem lookupAttr_append_right (pre sa : List (N × V)) (k : N)
    (h : ∀ q ∈ pre, q.1 ≠ k) : lookupAttr (pre ++ sa) k = lookupAttr sa k := by
  induction pre with
  | nil => rfl
  | cons q qs ih =>
    have hq : q.1 ≠ k := h q (by simp)
    simp only [List.cons_append, lookupAttr, if_neg hq]
    exact ih (fun q' hq' => h q' (by simp [hq']))

theorem lookupAttr_zip_not_mem (ns : List N) (t : List V) (k : N) (hk : k ∉ ns) :
    lookupAttr (ns.zip t) k = none := by
  induction ns generalizing t with
  | nil => rfl
  | cons n ns ih =>
    cases t with
    | nil => rfl
    | cons v t =>
      have hnk : n ≠ k := fun h => hk (by simp [h])
      simp only [List.zip_cons_cons, lookupAttr, if_neg hnk]
      exact ih t (fun h => hk (by simp [h]))

/-- Running the segmentation stage of `get_unique_ids` on the canonical
scalar-attributes dict of a tuple (the attribute names zipped with the
tuple), possibly extended on the left by already-consumed entries with
other names, computes exactly the mixed-radix fold of the tuple. -/
theorem segUid_append_zip (btapk atapk : N) (seg : List (N × List V)) :
    ∀ (t : List V) (pre : List (N × V)) (u : Nat),
      (seg.map Prod.fst).Nodup →
      (∀ p ∈ seg, p.1 ≠ btapk ∧ p.1 ≠ atapk) →
      (∀ p ∈ seg, ∀ q ∈ pre, p.1 ≠ q.1) →
      t ∈ cartProd (seg.map Prod.snd) →
      segUid btapk atapk seg (pre ++ (seg.map Prod.fst).zip t) u
        = some (uidFold (seg.map Prod.snd) t u) := by
  induction seg with
  | nil =>
    intro t pre u _ _ _ ht
    simp [cartProd] at ht
    simp [segUid, ht]
  | cons p rest ih =>
    rcases p with ⟨n, vs⟩
    intro t pre u hnodup hkeys hpre ht
    rw [List.map_cons] at ht
    obtain ⟨v, hv, t', ht', rfl⟩ := mem_cartProd_cons.mp ht
    have hkey : n ≠ btapk ∧ n ≠ atapk := hkeys (n, vs) (by simp)
    have hnodup2 : (rest.map Prod.fst).Nodup := by
      rw [List.map_cons, List.nodup_cons] at hnodup
      exact hnodup.2
    have hn_notin : n ∉ rest.map Prod.fst := by
      rw [List.map_cons, List.nodup_cons] at hnodup
      exact hnodup.1
    have hpre_n : ∀ q ∈ pre, q.1 ≠ n :=
      fun q hq => (hpre (n, vs) (by simp) q hq).symm
    have hlook : lookupAttr (pre ++ (n, v) :: (rest.map Prod.fst).zip t') n = some v := by
      rw [lookupAttr_append_right pre _ n hpre_n]
      simp [lookupAttr]
    have hzip : (((n, vs) :: rest).map Prod.fst).zip (v :: t')
        = (n, v) :: (rest.map Prod.fst).zip t' := by
      simp
    have hstep : segUid btapk atapk ((n, vs) :: rest)
        (pre ++ (n, v) :: (rest.map Prod.fst).zip t') u
        = segUid btapk atapk rest (pre ++ (n, v) :: (rest.map Prod.fst).zip t')
            (u * cardinality vs + ordinal vs v) := by
      simp [segUid, hlook, hkey.1, hkey.2, hv]
    have hassoc : pre ++ (n, v) :: (rest.map Prod.fst).zip t'
        = (pre ++ [(n, v)]) ++ (rest.map Prod.fst).zip t' := by
      simp
    rw [hzip, hstep, hassoc, ih t' (pre ++ [(n, v)]) (u * cardinality vs + ordinal vs v)
      hnodup2
      (fun q hq => hkeys q (by simp [hq]))
      (fun q hq r hr => by
        rcases List.mem_append.mp hr with hr1 | hr2
        · exact hpre q (by simp [hq]) r hr1
        · have hrv : r = (n, v) := by simpa using hr2
          subst hrv
          intro hcontra
          have hqmem : q.1 ∈ rest.map Prod.fst := List.mem_map_of_mem Prod.fst hq
          rw [hcontra] at hqmem
          exact hn_notin hqmem)
      ht']
    rfl

/-- `get_unique_ids`, evaluated on the canonical scalar-attributes dict of a
tuple of the key space, computes the three-stage mixed-radix value. -/
theorem get_unique_ids_on_domain (c : TapTapUidCalculator N V)
    (hnames : (c.segmentation.map Prod.fst).Nodup)
    (hkeys : ∀ p ∈ c.segmentation, p.1 ≠ c.btap_key ∧ p.1 ≠ c.atap_key)
    (t : List V) (ht : t ∈ cartProd (c.segmentation.map Prod.snd))
    (b a : Nat) (hb : b ∈ c.tap_ids) (ha : a ∈ c.tap_ids) :
    get_unique_ids c ((c.segmentation.map Prod.fst).zip t) b a
      = some ((uidFold (c.segmentation.map Prod.snd) t 0 * cardinality c.tap_ids
          + ordinal c.tap_ids b) * cardinality c.tap_ids + ordinal c.tap_ids a) := by
  have hseg := segUid_append_zip c.btap_key c.atap_key c.segmentation t [] 0
    hnames hkeys (by simp) ht
  rw [List.nil_append] at hseg
  rw [get_unique_ids, hseg]
  simp [hb, ha]

/-- **C1.** For every segmentation configuration (duplicate-free attribute
names and value lists, tap keys distinct from segment names) and every
duplicate-free tap set, `get_unique_ids` — iterating the ordinalizers in
canonical order with `uid = uid * cardinality + ordinal` — maps the full
Cartesian product of attribute values and origin/destination tap pairs, in
canonical order, exactly onto the contiguous uid range produced by
`fully_populated_uids`; in particular it is injective on that product. -/
theorem get_unique_ids_bijective (c : TapTapUidCalculator N V)
    (hvals : ∀ p ∈ c.segmentation, p.2.Nodup)
    (hnames : (c.segmentation.map Prod.fst).Nodup)
    (hkeys : ∀ p ∈ c.segmentation, p.1 ≠ c.btap_key ∧ p.1 ≠ c.atap_key)
    (htaps : c.tap_ids.Nodup) :
    (fullDomain c).map
        (fun x => get_unique_ids c ((c.segmentation.map Prod.fst).zip x.1.1) x.1.2 x.2)
      = (fully_populated_uids c).map some
    ∧ ∀ x ∈ fullDomain c, ∀ y ∈ fullDomain c,
        get_unique_ids c ((c.segmentation.map Prod.fst).zip x.1.1) x.1.2 x.2
          = get_unique_ids c ((c.segmentation.map Prod.fst).zip y.1.1) y.1.2 y.2
        → x = y := by
  have hvals2 : ∀ l ∈ c.segmentation.map Prod.snd, l.Nodup := by
    intro l hl
    obtain ⟨p, hp, rfl⟩ := List.mem_map.mp hl
    exact hvals p hp
  have hstage1 : (pairDomain (attribute_combination_tuples c) c.tap_ids).map
      (fun p => uidFold (c.segmentation.map Prod.snd) p.1 0 * cardinality c.tap_ids
        + ordinal c.tap_ids p.2)
      = List.range (prodLens (c.segmentation.map Prod.snd) * c.tap_ids.length) :=
    map_pairDomain_step _ _ _ _ (map_uidFold_cartProd _ hvals2) htaps
  have hstage2 : (fullDomain c).map
      (fun x => (uidFold (c.segmentation.map Prod.snd) x.1.1 0 * cardinality c.tap_ids
        + ordinal c.tap_ids x.1.2) * cardinality c.tap_ids + ordinal c.tap_ids x.2)
      = List.range (prodLens (c.segmentation.map Prod.snd) * c.tap_ids.length
          * c.tap_ids.length) :=
    map_pairDomain_step _ _ _ _ hstage1 htaps
  have hrange : prodLens (c.segmentation.map Prod.snd) * c.tap_ids.length * c.tap_ids.length
      = (attribute_combination_tuples c).length * c.tap_ids.length * c.tap_ids.length := by
    rw [attribute_combination_tuples, length_cartProd]
  have hmain : (fullDomain c).map
      (fun x => get_unique_ids c ((c.segmentation.map Prod.fst).zip x.1.1) x.1.2 x.2)
      = (fully_populated_uids c).map some := by
    have hpt : ∀ x ∈ fullDomain c,
        get_unique_ids c ((c.segmentation.map Prod.fst).zip x.1.1) x.1.2 x.2
          = some ((uidFold (c.segmentation.map Prod.snd) x.1.1 0 * cardinality c.tap_ids
              + ordinal c.tap_ids x.1.2) * cardinality c.tap_ids
              + ordinal c.tap_ids x.2) := by
      intro x hx
      obtain ⟨hx1, hx2⟩ := mem_pairDomain.mp hx
      obtain ⟨hx11, hx12⟩ := mem_pairDomain.mp hx1
      exact get_unique_ids_on_domain c hnames hkeys x.1.1 hx11 x.1.2 x.2 hx12 hx2
    rw [List.map_congr_left hpt]
    have hcomp : (fullDomain c).map
        (fun x => some ((uidFold (c.segmentation.map Prod.snd) x.1.1 0
            * cardinality c.tap_ids + ordinal c.tap_ids x.1.2) * cardinality c.tap_ids
            + ordinal c.tap_ids x.2))
        = ((fullDomain c).map
            (fun x => (uidFold (c.segmentation.map Prod.snd) x.1.1 0
              * cardinality c.tap_ids + ordinal c.tap_ids x.1.2) * cardinality c.tap_ids
              + ordinal c.tap_ids x.2)).map some := by
      rw [List.map_map]
      rfl
    rw [hcomp, hstage2, hrange]
    rfl
  refine ⟨hmain, ?_⟩
  have hnd : ((fullDomain c).map
      (fun x => get_unique_ids c ((c.segmentation.map Prod.fst).zip x.1.1) x.1.2 x.2)).Nodup := by
    rw [hmain]
    exact (List.nodup_range _).map (Option.some_injective Nat)
  exact fun x hx y hy h => List.inj_on_of_nodup_map hnd hx hy h

/-- The `get_skim_offset` fold on the canonical scalar-attributes dict of a
tuple (all segmentation names present) computes the same mixed-radix fold
as the uid computation restricted to the segmentation attributes. -/
theorem skimFold_append_zip (seg : List (N × List V)) :
    ∀ (t : List V) (pre : List (N × V)) (u : Nat),
      (seg.map Prod.fst).Nodup →
      (∀ p ∈ seg, ∀ q ∈ pre, p.1 ≠ q.1) →
      t ∈ cartProd (seg.map Prod.snd) →
      skimFold seg (pre ++ (seg.map Prod.fst).zip t) u
        = some (uidFold (seg.map Prod.snd) t u) := by
  induction seg with
  | nil =>
    intro t pre u _ _ ht
    simp [cartProd] at ht
    simp [skimFold, ht]
  | cons p rest ih =>
    rcases p with ⟨n, vs⟩
    intro t pre u hnodup hpre ht
    rw [List.map_cons] at ht
    obtain ⟨v, hv, t', ht', rfl⟩ := mem_cartProd_cons.mp ht
    have hnodup2 : (rest.map Prod.fst).Nodup := by
      rw [List.map_cons, List.nodup_cons] at hnodup
      exact hnodup.2
    have hn_notin : n ∉ rest.map Prod.fst := by
      rw [List.map_cons, List.nodup_cons] at hnodup
      exact hnodup.1
    have hpre_n : ∀ q ∈ pre, q.1 ≠ n :=
      fun q hq => (hpre (n, vs) (by simp) q hq).symm
    have hlook : lookupAttr (pre ++ (n, v) :: (rest.map Prod.fst).zip t') n = some v := by
      rw [lookupAttr_append_right pre _ n hpre_n]
      simp [lookupAttr]
    have hzip : (((n, vs) :: rest).map Prod.fst).zip (v :: t')
        = (n, v) :: (rest.map Prod.fst).zip t' := by
      simp
    have hstep : skimFold ((n, vs) :: rest)
        (pre ++ (n, v) :: (rest.map Prod.fst).zip t') u
        = skimFold rest (pre ++ (n, v) :: (rest.map Prod.fst).zip t')
            (u * cardinality vs + ordinal vs v) := by
      simp [skimFold, hlook, hv]
    have hassoc : pre ++ (n, v) :: (rest.map Prod.fst).zip t'
        = (pre ++ [(n, v)]) ++ (rest.map Prod.fst).zip t' := by
      simp
    rw [hzip, hstep, hassoc, ih t' (pre ++ [(n, v)]) (u * cardinality vs + ordinal vs v)
      hnodup2
      (fun q hq r hr => by
        rcases List.mem_append.mp hr with hr1 | hr2
        · exact hpre q (by simp [hq]) r hr1
        · have hrv : r = (n, v) := by simpa using hr2
          subst hrv
          intro hcontra
          have hqmem : q.1 ∈ rest.map Prod.fst := List.mem_map_of_mem Prod.fst hq
          rw [hcontra] at hqmem
          exact hn_notin hqmem)
      ht']
    rfl

/-- **C9.** Enumerating the segment combinations with
`each_scalar_attribute_combination` is deterministic and restartable — the
sequence is a pure function of the calculator's segmentation, so two calls
on the same calculator yield identical finite sequences — and its order is
exactly the Cartesian-product order used for uid composition: the i-th
yielded scalar-attribute mapping has `get_skim_offset` equal to `i`. -/
theorem each_scalar_attribute_combination_deterministic (c : TapTapUidCalculator N V)
    (hvals : ∀ p ∈ c.segmentation, p.2.Nodup)
    (hnames : (c.segmentation.map Prod.fst).Nodup)
    (hbk : c.btap_key ∉ c.segmentation.map Prod.fst)
    (hak : c.atap_key ∉ c.segmentation.map Prod.fst) :
    (∀ c' : TapTapUidCalculator N V, c'.segmentation = c.segmentation →
        each_scalar_attribute_combination c' = each_scalar_attribute_combination c)
    ∧ (each_scalar_attribute_combination c).length = (attribute_combination_tuples c).length
    ∧ ∀ (i : Nat) (h : i < (each_scalar_attribute_combination c).length),
        get_skim_offset c ((each_scalar_attribute_combination c).get ⟨i, h⟩) = some i := by
  refine ⟨?_, ?_, ?_⟩
  · intro c' hc'
    simp [each_scalar_attribute_combination, attribute_combination_tuples, hc']
  · simp [each_scalar_attribute_combination]
  · intro i h
    have hvals2 : ∀ l ∈ c.segmentation.map Prod.snd, l.Nodup := by
      intro l hl
      obtain ⟨p, hp, rfl⟩ := List.mem_map.mp hl
      exact hvals p hp
    have hlt : i < (cartProd (c.segmentation.map Prod.snd)).length := by
      simpa [each_scalar_attribute_combination, attribute_combination_tuples] using h
    have hget : (each_scalar_attribute_combination c).get ⟨i, h⟩
        = (c.segmentation.map Prod.fst).zip
            ((cartProd (c.segmentation.map Prod.snd)).get ⟨i, hlt⟩) := by
      simp only [each_scalar_attribute_combination, attribute_combination_tuples,
        List.get_eq_getElem, List.getElem_map]
    have ht : (cartProd (c.segmentation.map Prod.snd)).get ⟨i, hlt⟩
        ∈ cartProd (c.segmentation.map Prod.snd) := List.get_mem _ _ hlt
    have hguard1 : lookupAttr ((c.segmentation.map Prod.fst).zip
        ((cartProd (c.segmentation.map Prod.snd)).get ⟨i, hlt⟩)) c.btap_key = none :=
      lookupAttr_zip_not_mem _ _ _ hbk
    have hguard2 : lookupAttr ((c.segmentation.map Prod.fst).zip
        ((cartProd (c.segmentation.map Prod.snd)).get ⟨i, hlt⟩)) c.atap_key = none :=
      lookupAttr_zip_not_mem _ _ _ hak
    have hfold := skimFold_append_zip c.segmentation
      ((cartProd (c.segmentation.map Prod.snd)).get ⟨i, hlt⟩) [] 0 hnames (by simp) ht
    rw [List.nil_append] at hfold
    rw [hget, get_skim_offset, if_pos ⟨hguard1, hguard2⟩, hfold]
    have hmap := map_uidFold_cartProd (c.segmentation.map Prod.snd) hvals2
    have hlt2 : i < ((cartProd (c.segmentation.map Prod.snd)).map
        (fun t => uidFold (c.segmentation.map Prod.snd) t 0)).length := by
      simpa using hlt
    have hval : uidFold (c.segmentation.map Prod.snd)
        ((cartProd (c.segmentation.map Prod.snd)).get ⟨i, hlt⟩) 0 = i := by
      have h1 := List.get_of_eq hmap ⟨i, hlt2⟩
      rw [List.get_eq_getElem, List.getElem_map] at h1
      rw [List.get_eq_getElem, List.getElem_range] at h1
      simpa using h1
    rw [hval]

/-- **C3.** For segmentation `{tod: [AM, MD]}` and access points `[10, 20]`
(encoded over naturals by `exampleCalculator`): `fully_populated_shape` is
`(8, num_sets)`; the uid of scalar attribute `tod = AM` with row
`btap = 10, atap = 10` is `0`; and the uid of `tod = MD` with row
`btap = 20, atap = 20` is `7`. -/
theorem example_scenario_uids : ∀ sets : List Nat,
    fully_populated_shape (exampleCalculator sets) = (8, sets.length)
    ∧ get_unique_ids (exampleCalculator sets) [(0, 0)] 10 10 = some 0
    ∧ get_unique_ids (exampleCalculator sets) [(0, 1)] 20 20 = some 7 := by
  intro sets
  exact ⟨rfl, rfl, rfl⟩

theorem example_scenario_uids_witness :
    fully_populated_shape (exampleCalculator [0]) = (8, 1)
    ∧ get_unique_ids (exampleCalculator [0]) [(0, 0)] 10 10 = some 0
    ∧ get_unique_ids (exampleCalculator [0]) [(0, 1)] 20 20 = some 7 :=
  example_scenario_uids [0]

theorem get_unique_ids_bijective_witness :
    (fullDomain (exampleCalculator [0])).map
        (fun x => get_unique_ids (exampleCalculator [0])
          (((exampleCalculator [0]).segmentation.map Prod.fst).zip x.1.1) x.1.2 x.2)
      = (fully_populated_uids (exampleCalculator [0])).map some :=
  (get_unique_ids_bijective (exampleCalculator [0])
    (by decide) (by decide) (by decide) (by decide)).1

theorem each_scalar_attribute_combination_deterministic_witness :
    get_skim_offset (exampleCalculator [0])
        ((each_scalar_attribute_combination (exampleCalculator [0])).get ⟨1, by decide⟩)
      = some 1 :=
  (each_scalar_attribute_combination_deterministic (exampleCalculator [0])
    (by decide) (by decide) (by decide) (by decide)).2.2 1 (by decide)

/-- **C2.** The claim says a flush of an open, dirty, fully populated store
persists the table to the static memmap cache file; the code instead hits
the literal `assert False` (annotated `#BUG` in the source) placed before
the static-write code, so that write path is dead and flush raises.  Here
the store holds the full 8-row table of the example configuration and is
dirty, and flush fails with the assertion instead of producing a
`staticFile` write. -/
theorem flush_fully_populated_asserts_false :
    flush ⟨true, true⟩ (fully_populated_shape (exampleCalculator [0])).1
        (⟨true, true, some ((List.range 8).map (fun i => (i, ())))⟩ : CacheState Unit)
      = Res.fail CacheErr.assertFalseStaticFlush := by
  decide

/-- **C4.** `extend_table` requires non-empty `new_rows`, an open store and
a not-yet-fully-populated table, failing the corresponding assertion
otherwise; it fails with the duplicate assertion whenever a uid key of
`new_rows` duplicates another new key or an existing key; and on success
the table is marked dirty and grows by exactly `len(new_rows)` rows. -/
theorem extend_table_contract {R : Type} (fullRows : Nat) (s : CacheState R)
    (new_rows : List (Nat × R)) :
    (new_rows.length = 0 →
      extend_table fullRows s new_rows = (s, some CacheErr.assertNonempty))
    ∧ (new_rows.length ≠ 0 → s.is_open = false →
      extend_table fullRows s new_rows = (s, some CacheErr.assertOpenState))
    ∧ (new_rows.length ≠ 0 → s.is_open = true →
      is_fully_populated fullRows s = true →
      extend_table fullRows s new_rows = (s, some CacheErr.assertNotFullyPopulated))
    ∧ (new_rows.length ≠ 0 → s.is_open = true →
      is_fully_populated fullRows s = false →
      ¬ ((tableOf s ++ new_rows).map Prod.fst).Nodup →
      (extend_table fullRows s new_rows).2 = some CacheErr.assertNoDuplicates)
    ∧ (new_rows.length ≠ 0 → s.is_open = true →
      is_fully_populated fullRows s = false →
      ((tableOf s ++ new_rows).map Prod.fst).Nodup →
      extend_table fullRows s new_rows
        = ({ s with is_changed := true, df := some (tableOf s ++ new_rows) }, none)
      ∧ (tableOf (extend_table fullRows s new_rows).1).length
        = (tableOf s).length + new_rows.length) := by
  obtain ⟨o, ch, df⟩ := s
  refine ⟨?_, ?_, ?_, ?_, ?_⟩
  · intro h0
    simp [extend_table, h0]
  · intro hne hopen
    simp only [CacheState.is_open] at hopen
    subst hopen
    simp [extend_table, hne]
  · intro hne hopen hfull
    simp only [CacheState.is_open] at hopen
    subst hopen
    simp [extend_table, hne, hfull]
  · intro hne hopen hfull hdup
    simp only [CacheState.is_open] at hopen
    subst hopen
    cases df with
    | none =>
      simp only [tableOf, Option.getD_none, List.nil_append] at hdup
      simp [extend_table, hne, is_fully_populated, hdup]
    | some d =>
      simp only [tableOf, Option.getD_some, List.map_append] at hdup
      simp [extend_table, hne, hfull, hdup]
  · intro hne hopen hfull hnodup
    simp only [CacheState.is_open] at hopen
    subst hopen
    cases df with
    | none =>
      simp only [tableOf, Option.getD_none, List.nil_append] at hnodup ⊢
      simp [extend_table, hne, is_fully_populated, hnodup]
    | some d =>
      simp only [tableOf, Option.getD_some, List.map_append] at hnodup ⊢
      simp [extend_table, hne, hfull, hnodup]

theorem extend_table_contract_witness :
    extend_table 8 (⟨true, false, some [(0, ())]⟩ : CacheState Unit) [(1, ()), (2, ())]
      = (⟨true, true, some [(0, ()), (1, ()), (2, ())]⟩, none) :=
  ((extend_table_contract 8 (⟨true, false, some [(0, ())]⟩ : CacheState Unit)
    [(1, ()), (2, ())]).2.2.2.2 (by decide) (by decide) (by decide) (by decide)).1

/-- **C10.** The duplicate-key failure of `extend_table` is not atomic: the
duplicate check runs after the new rows have been concatenated and the
dirty flag set, so on that error the store is left dirty and holding the
duplicate rows. -/
theorem extend_table_duplicate_keeps_mutation {R : Type} (fullRows : Nat)
    (s : CacheState R) (d new_rows : List (Nat × R))
    (hdf : s.df = some d) (hopen : s.is_open = true)
    (hfull : is_fully_populated fullRows s = false)
    (hne : new_rows.length ≠ 0)
    (hdup : ¬ ((d ++ new_rows).map Prod.fst).Nodup) :
    extend_table fullRows s new_rows
      = ({ s with is_changed := true, df := some (d ++ new_rows) },
         some CacheErr.assertNoDuplicates) := by
  obtain ⟨o, ch, df⟩ := s
  simp only [CacheState.is_open] at hopen
  subst hopen
  simp only [CacheState.df] at hdf
  subst hdf
  simp only [List.map_append] at hdup
  simp [extend_table, hne, hfull, hdup]

theorem extend_table_duplicate_keeps_mutation_witness :
    extend_table 8 (⟨true, false, some [(3, ())]⟩ : CacheState Unit) [(3, ())]
      = (⟨true, true, some [(3, ()), (3, ())]⟩, some CacheErr.assertNoDuplicates) :=
  extend_table_duplicate_keeps_mutation 8 (⟨true, false, some [(3, ())]⟩ : CacheState Unit)
    [(3, ())] [(3, ())] rfl rfl (by decide) (by decide) (by decide)

/-- **C5 (counterexample).** The claim says `extend_table` rejects a new row
whose uid lies outside `[0, fully_populated_rows)`; with the example
configuration (`fully_populated_rows = 8`) extending an open empty store by
the single row with uid `100` succeeds without any error, although
`100` is outside the valid range. -/
theorem extend_table_out_of_range_accepted :
    extend_table (fully_populated_shape (exampleCalculator [0])).1
        (⟨true, false, none⟩ : CacheState Unit) [(100, ())]
      = (⟨true, true, some [(100, ())]⟩, none)
    ∧ ¬ (100 < (fully_populated_shape (exampleCalculator [0])).1) := by
  exact ⟨by decide, by decide⟩

/-- **C5 (amended).** `extend_table` performs no uid-range validation: a new
row whose uid lies outside `[0, fully_populated_rows)` is accepted — the
call succeeds and the out-of-range row lands in the table — whenever the
usual preconditions hold and the keys are duplicate-free. -/
theorem extend_table_no_range_check {R : Type} (fullRows : Nat) (s : CacheState R)
    (new_rows : List (Nat × R)) (u : Nat) (r : R)
    (hne : new_rows.length ≠ 0) (hopen : s.is_open = true)
    (hfull : is_fully_populated fullRows s = false)
    (hnodup : ((tableOf s ++ new_rows).map Prod.fst).Nodup)
    (hmem : (u, r) ∈ new_rows) (_hout : fullRows ≤ u) :
    (extend_table fullRows s new_rows).2 = none
    ∧ (u, r) ∈ tableOf (extend_table fullRows s new_rows).1 := by
  have h := (extend_table_contract fullRows s new_rows).2.2.2.2 hne hopen hfull hnodup
  rw [h.1]
  constructor
  · rfl
  · simp [tableOf, hmem]

theorem extend_table_no_range_check_witness :
    (extend_table 8 (⟨true, false, none⟩ : CacheState Unit) [(100, ())]).2 = none
    ∧ (100, ()) ∈ tableOf (extend_table 8 (⟨true, false, none⟩ : CacheState Unit)
        [(100, ())]).1 :=
  extend_table_no_range_check 8 (⟨true, false, none⟩ : CacheState Unit) [(100, ())]
    100 () (by decide) (by decide) (by decide) (by decide) (by decide) (by decide)

/-- **C6.** Opening the cache store in rebuild mode performs no loading at
all: whatever shared buffer, static file or dynamic file the environment
holds, the result is the same — the store is left open with no in-memory
dataframe — and the result does not depend on the environment at all. -/
theorem open_rebuild_reads_nothing {R : Type} (env env2 : OpenEnv R)
    (uids uids2 : List Nat) (s : CacheState R)
    (hopen : s.is_open = false) (hdf : s.df = none) :
    openCache env uids s true = Res.ok ⟨true, s.is_changed, none⟩
    ∧ openCache env uids s true = openCache env2 uids2 s true := by
  obtain ⟨o, ch, df⟩ := s
  simp only [CacheState.is_open] at hopen
  subst hopen
  simp only [CacheState.df] at hdf
  subst hdf
  exact ⟨rfl, rfl⟩

theorem open_rebuild_reads_nothing_witness :
    openCache (⟨true, some [()], some [()], some [(0, ())]⟩ : OpenEnv Unit) [0]
        ⟨false, false, none⟩ true = Res.ok ⟨true, false, none⟩
    ∧ openCache (⟨true, some [()], some [()], some [(0, ())]⟩ : OpenEnv Unit) [0]
        ⟨false, false, none⟩ true
      = openCache (⟨false, none, none, none⟩ : OpenEnv Unit) [] ⟨false, false, none⟩ true :=
  open_rebuild_reads_nothing ⟨true, some [()], some [()], some [(0, ())]⟩
    ⟨false, none, none, none⟩ [0] [] ⟨false, false, none⟩ rfl rfl

/-- **C7 (counterexample).** The claim says flushing an open, non-dirty
store is a no-op raising no error; but a store opened with nothing cached
holds no dataframe (`self._df is None`), and flush then raises an attribute
error at `self._df.index` before ever looking at the dirty flag. -/
theorem flush_no_table_fails :
    flush ⟨false, false⟩ (fully_populated_shape (exampleCalculator [0])).1
        (⟨true, false, none⟩ : CacheState Unit)
      = Res.fail CacheErr.attributeErrorNoneTable := by
  decide

/-- **C7 (amended).** On an open store holding a duplicate-free table:
if not dirty, flush is a no-op (no write, no error); if dirty, not fully
populated and the rebuild flag is disabled, flush succeeds without writing
the dynamic file and leaves the state unchanged; if the flag is enabled,
the table is written to the dynamic (feather) file and the dirty flag is
cleared. -/
theorem flush_contract {R : Type} (env : LosSettings) (fullRows : Nat)
    (s : CacheState R) (d : List (Nat × R))
    (hopen : s.is_open = true) (hdf : s.df = some d)
    (hnodup : (d.map Prod.fst).Nodup) :
    (s.is_changed = false → flush env fullRows s = Res.ok (s, []))
    ∧ (s.is_changed = true → is_fully_populated fullRows s = false →
      env.rebuild_tvpb_cache = false →
      ∃ w, flush env fullRows s = Res.ok (s, w)
        ∧ ∀ t, WriteEvent.dynamicFile t ∉ w)
    ∧ (s.is_changed = true → is_fully_populated fullRows s = false →
      env.rebuild_tvpb_cache = true →
      ∃ w, flush env fullRows s = Res.ok ({ s with is_changed := false }, w)
        ∧ WriteEvent.dynamicFile d ∈ w) := by
  obtain ⟨o, ch, df⟩ := s
  simp only [CacheState.is_open] at hopen
  subst hopen
  simp only [CacheState.df] at hdf
  subst hdf
  refine ⟨?_, ?_, ?_⟩
  · intro hch
    simp only [CacheState.is_changed] at hch
    subst hch
    simp [flush, hnodup]
  · intro hch hfull hflag
    simp only [CacheState.is_changed] at hch
    subst hch
    refine ⟨if env.trace_tvpb_cache_as_csv then [WriteEvent.traceFile d] else [], ?_, ?_⟩
    · simp [flush, hnodup, hfull, hflag]
    · intro t ht
      by_cases htr : env.trace_tvpb_cache_as_csv
      · simp [htr] at ht
      · simp [htr] at ht
  · intro hch hfull hflag
    simp only [CacheState.is_changed] at hch
    subst hch
    refine ⟨WriteEvent.dynamicFile d
        :: (if env.trace_tvpb_cache_as_csv then [WriteEvent.traceFile d] else []), ?_, ?_⟩
    · simp [flush, hnodup, hfull, hflag]
    · simp

theorem flush_contract_witness :
    flush ⟨false, false⟩ 8 (⟨true, false, some [(0, ())]⟩ : CacheState Unit)
      = Res.ok (⟨true, false, some [(0, ())]⟩, [])
    ∧ (∃ w, flush ⟨false, false⟩ 8 (⟨true, true, some [(0, ())]⟩ : CacheState Unit)
        = Res.ok (⟨true, true, some [(0, ())]⟩, w)
        ∧ ∀ t, WriteEvent.dynamicFile t ∉ w)
    ∧ (∃ w, flush ⟨true, false⟩ 8 (⟨true, true, some [(0, ())]⟩ : CacheState Unit)
        = Res.ok (⟨true, false, some [(0, ())]⟩, w)
        ∧ WriteEvent.dynamicFile [(0, ())] ∈ w) :=
  ⟨(flush_contract ⟨false, false⟩ 8 (⟨true, false, some [(0, ())]⟩ : CacheState Unit)
      [(0, ())] rfl rfl (by decide)).1 rfl,
   (flush_contract ⟨false, false⟩ 8 (⟨true, true, some [(0, ())]⟩ : CacheState Unit)
      [(0, ())] rfl rfl (by decide)).2.1 rfl (by decide) rfl,
   (flush_contract ⟨true, false⟩ 8 (⟨true, true, some [(0, ())]⟩ : CacheState Unit)
      [(0, ())] rfl rfl (by decide)).2.2 rfl (by decide) rfl⟩

/-- **C8 (counterexample).** The claim says both the private and the shared
buffer come back with every element set to the NaN sentinel; but the shared
buffer is a `multiprocessing.Array`, which is zero-initialized — with the
example configuration (shape `(8, 1)`) every element is the float zero, not
NaN. -/
theorem allocate_shared_buffer_is_zero :
    allocate_data_buffer (fully_populated_shape (exampleCalculator [0])) false true
      = Res.ok (List.replicate 8 (Cell.val 0))
    ∧ Cell.val 0 ≠ Cell.nan := by
  exact ⟨by decide, by decide⟩

/-- **C8 (amended).** `allocate_data_buffer` returns a flat buffer of
`rows × cols` elements (from the fully-populated shape) in both cases; a
private buffer has every element set to the unset sentinel NaN, while a
shared buffer is zero-initialized (it is primed with NaN or file contents
later, by `load_data_to_buffer`). -/
theorem allocate_data_buffer_contents (shape : Nat × Nat) :
    allocate_data_buffer shape false false
      = Res.ok (List.replicate (iprod shape) Cell.nan)
    ∧ allocate_data_buffer shape false true
      = Res.ok (List.replicate (iprod shape) (Cell.val 0))
    ∧ (List.replicate (iprod shape) Cell.nan).length = shape.1 * shape.2 := by
  refine ⟨rfl, rfl, ?_⟩
  simp [iprod]

end PBC
